import Mathlib

/-!
Verification model of the structure-preserving block translation engine of
the Epub-translate repository (file `translate_epub.py`, plus the retry
policy of its oracle client and, for one claim, the driver loop of
`translate_epub`).

Modelling conventions:
* HTML trees (the BeautifulSoup node soup) are the inductive type `Node`:
  element nodes carry a tag name, an attribute mapping (association list
  with unique keys; Python dict equality is the order-insensitive `attrsEq`
  below) and ordered children; text nodes carry a raw string.  Multi-valued
  attributes (for example `class`) are represented by their serialized
  string value.
* The external HTML parser (`BeautifulSoup(s, "lxml")` followed by a `.body`
  access) is an abstract parameter `parse : String → Option (List Node)`:
  `some cs` means the parsed soup has a `body` element with contents `cs`,
  `none` means `soup.body` is `None` (as bs4+lxml yields for empty or
  whitespace-only input), in which case an attribute access on it raises
  `AttributeError`.  Serialization (`str(el)`) is the concrete `ser` below.
* The oracle client call `tr.translate_html(s, src, tgt)` is an abstract
  parameter `tr : String → Except Unit String`; `.error` is an exception
  escaping the call (its bounded retry already exhausted).  The language
  tags, which are threaded through unchanged, are dropped.
* Side effects are made explicit: each modelled function returns the new
  value of the node it mutates together with the list of oracle request
  strings it issued, and exceptions become an `Except PyErr` result.
-/

/-- Parsed markup node: an element (tag) with name, attribute mapping and
ordered children, or a raw text node (bs4 `Tag` / `NavigableString`). -/
inductive Node where
  | elem (name : String) (attrs : List (String × String)) (children : List Node)
  | text (s : String)

/-- Exceptions that can escape the modelled Python code: an oracle-client
exception (`translate_html` failed after its retries), or the
`AttributeError` raised by reading `.contents` of a `None` body. -/
inductive PyErr where
  | oracle
  | attributeError
deriving DecidableEq, Repr

/-- Abstract oracle client: `translate_html` restricted to one fragment. -/
abbrev Oracle := String → Except Unit String

/-- Abstract bs4+lxml parse: body contents of the soup, or `none` when the
soup has no body element. -/
abbrev ParseFn := String → Option (List Node)

/-- Source constant `BLOCK_TAGS` (translate_epub.py lines 11-13). -/
def BLOCK_TAGS : List String :=
  ["p","div","li","blockquote","section","article","aside","header","footer","nav","main",
   "figure","figcaption","h1","h2","h3","h4","h5","h6","dd","dt","dl","table","thead","tbody",
   "tfoot","tr","td","th","caption","pre"]

/-- Source constant `CODE_LIKE_TAGS` (translate_epub.py line 14). -/
def CODE_LIKE_TAGS : List String := ["code","pre","samp","kbd","var"]

/-- Tag-name accessor (empty string on text nodes, never used there). -/
def Node.tag : Node → String
  | .elem n _ _ => n
  | .text _ => ""

/-- Attribute-mapping accessor. -/
def Node.attrsOf : Node → List (String × String)
  | .elem _ a _ => a
  | .text _ => []

/-- Children accessor (`el.contents`). -/
def Node.childrenOf : Node → List Node
  | .elem _ _ cs => cs
  | .text _ => []

/-- Test for `isinstance(node, Tag)`. -/
def Node.isTag : Node → Bool
  | .elem _ _ _ => true
  | .text _ => false

/-- First key lookup in an attribute association list (Python dict access). -/
def lookupAttr : List (String × String) → String → Option String
  | [], _ => none
  | (k, v) :: rest, key => if k == key then some v else lookupAttr rest key

/-- Python dict equality on attribute mappings: same key set, same value at
each key (keys are unique in bs4 attribute dicts). -/
def attrsEq (a b : List (String × String)) : Bool :=
  a.all (fun kv => lookupAttr b kv.1 == some kv.2) &&
  b.all (fun kv => lookupAttr a kv.1 == some kv.2)

/-- Source function `_same_tag_and_attrs` (lines 55-56): equal tag name and
equal attribute dict.  Only ever applied to element nodes. -/
def sameTagAndAttrs : Node → Node → Bool
  | .elem n1 a1 _, .elem n2 a2 _ => n1 == n2 && attrsEq a1 a2
  | _, _ => false

/-- Serialization of an attribute list in document order. -/
def serAttrs : List (String × String) → String
  | [] => ""
  | (k, v) :: rest => " " ++ k ++ "=\"" ++ v ++ "\"" ++ serAttrs rest

mutual
/-- Serialization `str(el)` of a node (source `_extract_outer`, line 43-44). -/
def ser : Node → String
  | .text s => s
  | .elem n a cs => "<" ++ n ++ serAttrs a ++ ">" ++ serList cs ++ "</" ++ n ++ ">"

/-- Serialization of a list of sibling nodes (source `_extract_inner`,
lines 46-47: concatenation of `str(c)` over `el.contents`). -/
def serList : List Node → String
  | [] => ""
  | c :: cs => ser c ++ serList cs
end

mutual
/-- Does this subtree (the node itself included) contain a tag whose name is
in `CODE_LIKE_TAGS`?  Applied to the children of a block this is exactly the
guard loop of `_translate_text_nodes` (lines 85-87), which scans the strict
descendants of the block. -/
def subtreeHasCodeLike : Node → Bool
  | .text _ => false
  | .elem n _ cs => n ∈ CODE_LIKE_TAGS || listHasCodeLike cs

def listHasCodeLike : List Node → Bool
  | [] => false
  | c :: cs => subtreeHasCodeLike c || listHasCodeLike cs
end

mutual
/-- Concatenated text of a subtree (bs4 `get_text`). -/
def getText : Node → String
  | .text s => s
  | .elem _ _ cs => getTextList cs

def getTextList : List Node → String
  | [] => ""
  | c :: cs => getText c ++ getTextList cs
end

/-- Concatenated text of a whole parsed soup (`parsed.get_text()`); a soup
with no body has no text. -/
def getTextSoup : Option (List Node) → String
  | none => ""
  | some cs => getTextList cs

mutual
/-- First element named "span" in document order (bs4 `find("span")`). -/
def findSpanNode : Node → Option Node
  | .text _ => none
  | .elem n a cs => if n == "span" then some (.elem n a cs) else findSpanList cs

def findSpanList : List Node → Option Node
  | [] => none
  | c :: cs =>
    match findSpanNode c with
    | some x => some x
    | none => findSpanList cs
end

/-- Span lookup over a parsed soup (`parsed.find("span")`). -/
def findSpanSoup : Option (List Node) → Option Node
  | none => none
  | some cs => findSpanList cs

/-- Python blank test: `not node.strip()` — every character is whitespace. -/
def pyBlank (s : String) : Bool :=
  s.toList.all fun c => c == ' ' || c == '\t' || c == '\n' || c == '\r' || c == '\x0b' || c == '\x0c'

/-- Python `s.split("\n")`: split on every newline, keeping empty pieces
(`"".split("\n")` is `[""]`). -/
def pySplitNl (s : String) : List String :=
  (s.toList.foldr
    (fun c acc =>
      if c == '\n' then [] :: acc
      else (c :: (acc.headD [])) :: acc.tail)
    [[]]).map List.asString

/-- Python `"\n".join(parts)`. -/
def pyJoinNl : List String → String
  | [] => ""
  | [s] => s
  | s :: rest => s ++ "\n" ++ pyJoinNl rest

/-- First element child of a body-contents list: the source expression
`next((c for c in parsed.body.contents if isinstance(c, Tag)), None)`
(lines 119, 125, 142). -/
def firstTag (cs : List Node) : Option Node := cs.find? Node.isTag

mutual
/-- Body of the second loop of `_translate_text_nodes` (lines 88-94) on one
descendant node: each non-blank text node is wrapped in `<span>...</span>`,
sent to the oracle, and replaced by the plain text extracted from the
response (the span's text if a span is found, else all of the soup's text);
element descendants are traversed.  An oracle exception is not caught here
(it propagates to the caller).  Returns the rewritten node and the issued
request fragments, in document order. -/
def trTextNode (tr : Oracle) (parse : ParseFn) : Node → Except PyErr Node × List String
  | .text s =>
    if pyBlank s then (.ok (.text s), [])
    else
      let frag := "<span>" ++ s ++ "</span>"
      match tr frag with
      | .error _ => (.error .oracle, [frag])
      | .ok out =>
        let parsed := parse out
        let repl :=
          match findSpanSoup parsed with
          | some sp => getText sp
          | none => getTextSoup parsed
        (.ok (.text repl), [frag])
  | .elem n a cs =>
    match trTextList tr parse cs with
    | (.ok cs2, t) => (.ok (.elem n a cs2), t)
    | (.error e, t) => (.error e, t)

def trTextList (tr : Oracle) (parse : ParseFn) : List Node → Except PyErr (List Node) × List String
  | [] => (.ok [], [])
  | c :: cs =>
    match trTextNode tr parse c with
    | (.error e, t) => (.error e, t)
    | (.ok c2, t) =>
      match trTextList tr parse cs with
      | (.ok cs2, t2) => (.ok (c2 :: cs2), t ++ t2)
      | (.error e, t2) => (.error e, t ++ t2)
end

/-- Source function `_translate_text_nodes` (lines 84-94), the NodeFallback:
if any strict descendant of `el` is a code-like tag the whole block is
skipped (returned unchanged, no oracle call); otherwise every non-blank text
node under `el` is translated individually in document order. -/
def translateTextNodes (tr : Oracle) (parse : ParseFn) (el : Node) : Except PyErr Node × List String :=
  match el with
  | .elem n a cs =>
    if listHasCodeLike cs then (.ok (.elem n a cs), [])
    else
      match trTextList tr parse cs with
      | (.ok cs2, t) => (.ok (.elem n a cs2), t)
      | (.error e, t) => (.error e, t)
  | .text s => (.ok (.text s), [])

/-- Source function `_replace_inner` (lines 49-53): clear the element, parse
the replacement markup and append the parsed body's contents.  When the
reparse yields a soup with no body element, `parsed.body.contents` raises
`AttributeError` — note the element has already been cleared at that point,
which the caller's exception handler observes. -/
def replaceInner (parse : ParseFn) (el : Node) (html : String) : Except PyErr Node :=
  match el with
  | .elem n a _ =>
    match parse html with
    | some cs => .ok (.elem n a cs)
    | none => .error .attributeError
  | .text s => .ok (.text s)

/-- Cleared form of an element (`el.clear()`): same tag and attributes, no
children.  This is the state `_replace_inner` leaves behind when its reparse
raises. -/
def clearedOf : Node → Node
  | .elem n a _ => .elem n a []
  | .text s => .text s

/-- Single-block retry of the batch path, the `try` block of lines 122-132:
one more oracle call on the block's own outer markup, shape re-validation,
and installation on success; any exception inside the `try` (the oracle
call, the `parsed_retry.body` access, `_replace_inner`, or the inner
NodeFallback call) is caught and answered by running `_translate_text_nodes`
once more (line 132).  When `_replace_inner` raised, the element was already
cleared, so the handler's NodeFallback runs over an emptied element. -/
def singleRetry (tr : Oracle) (parse : ParseFn) (el : Node) (origHtml : String) :
    Except PyErr Node × List String :=
  match tr origHtml with
  | .error _ =>
    let (r, t) := translateTextNodes tr parse el
    (r, origHtml :: t)
  | .ok outHtml =>
    match parse outHtml with
    | none =>
      let (r, t) := translateTextNodes tr parse el
      (r, origHtml :: t)
    | some cs =>
      match firstTag cs with
      | some topRetry =>
        if sameTagAndAttrs el topRetry then
          match replaceInner parse el (serList topRetry.childrenOf) with
          | .ok el2 => (.ok el2, [origHtml])
          | .error _ =>
            let (r, t) := translateTextNodes tr parse (clearedOf el)
            (r, origHtml :: t)
        else
          let (r, t) := translateTextNodes tr parse el
          match r with
          | .ok el2 => (.ok el2, origHtml :: t)
          | .error _ =>
            let (r2, t2) := translateTextNodes tr parse el
            (r2, origHtml :: (t ++ t2))
      | none =>
        let (r, t) := translateTextNodes tr parse el
        match r with
        | .ok el2 => (.ok el2, origHtml :: t)
        | .error _ =>
          let (r2, t2) := translateTextNodes tr parse el
          (r2, origHtml :: (t ++ t2))

/-- Per-element body of the batch loop (lines 111-135): a missing or empty
piece routes straight to NodeFallback; otherwise the piece is parsed (a
body-less parse raises `AttributeError` outside any handler), its first
top-level tag shape-checked, and on success the block's children are
replaced with the piece's inner content; on shape failure the single retry
of lines 122-132 runs. -/
def processBatchElem (tr : Oracle) (parse : ParseFn) (el : Node) (piece : Option String) :
    Except PyErr Node × List String :=
  let origHtml := ser el
  match piece with
  | none => translateTextNodes tr parse el
  | some t =>
    if t == "" then translateTextNodes tr parse el
    else
      match parse t with
      | none => (.error .attributeError, [])
      | some cs =>
        match firstTag cs with
        | some top =>
          if sameTagAndAttrs el top then
            match replaceInner parse el (serList top.childrenOf) with
            | .ok el2 => (.ok el2, [])
            | .error e => (.error e, [])
          else singleRetry tr parse el origHtml
        | none => singleRetry tr parse el origHtml

/-- Single-block path of the main loop (lines 137-148, taken when
`batch_size` is not greater than 1): one whole-block oracle call — not
wrapped in any handler, so an oracle exception propagates — then shape
validation, installation on success, NodeFallback on failure. -/
def processSingleBlock (tr : Oracle) (parse : ParseFn) (el : Node) :
    Except PyErr Node × List String :=
  let origHtml := ser el
  match tr origHtml with
  | .error _ => (.error .oracle, [origHtml])
  | .ok outHtml =>
    match parse outHtml with
    | none => (.error .attributeError, [origHtml])
    | some cs =>
      match firstTag cs with
      | some top =>
        if sameTagAndAttrs el top then
          match replaceInner parse el (serList top.childrenOf) with
          | .ok el2 => (.ok el2, [origHtml])
          | .error e => (.error e, [origHtml])
        else
          let (r, t) := translateTextNodes tr parse el
          (r, origHtml :: t)
      | none =>
        let (r, t) := translateTextNodes tr parse el
        (r, origHtml :: t)

/-- Read the node at a child-index path. -/
def getPath : Node → List Nat → Option Node
  | n, [] => some n
  | .elem _ _ cs, i :: p =>
    match cs[i]? with
    | some c => getPath c p
    | none => none
  | .text _, _ :: _ => none

/-- Write a node at a child-index path (identity when the path is dead). -/
def setPath : Node → List Nat → Node → Node
  | _, [], r => r
  | .elem n a cs, i :: p, r =>
    match cs[i]? with
    | some c => .elem n a (cs.set i (setPath c p r))
    | none => .elem n a cs
  | .text s, _ :: _, _ => .text s

mutual
/-- Paths (relative to a root) of every element in this child list, in
document order, whose tag is in `BLOCK_TAGS`: the source generator
`_iter_blocks` (lines 38-41), which walks `body.descendants` — each node
before its own descendants — and keeps the block tags. -/
def blockPathsList : List Node → List Nat → Nat → List (List Nat)
  | [], _, _ => []
  | c :: cs, pre, i =>
    (match c with
     | .elem n _ _ =>
       (if n ∈ BLOCK_TAGS then [pre ++ [i]] else []) ++ blockPathsIn c (pre ++ [i])
     | .text _ => []) ++ blockPathsList cs pre (i + 1)

def blockPathsIn : Node → List Nat → List (List Nat)
  | .text _, _ => []
  | .elem _ _ cs, pre => blockPathsList cs pre 0
end

/-- Block paths of a document body, root-relative. -/
def blockPaths (body : Node) : List (List Nat) := blockPathsIn body []

/-- Source dataclass `Settings` (lines 26-36), restricted to the two fields
the translation engine reads (`st.batch_size`, `st.dry_run`); the remaining
fields are I/O plumbing (paths, language tags, model, temperature, pauses)
that the embedding threads elsewhere or drops. -/
structure Settings where
  batch_size : Int
  dry_run : Bool

/-- Inner `for idx_in_batch, el in enumerate(batch)` loop of the batch path
(lines 111-135): process each block of the batch against the piece at its
index (`mapping.get(idx_in_batch)`, which is the index-aligned split part or
`None` past the end), installing each result into the tree before the next
block is read.  An escaping exception aborts the whole loop.

The Python code addresses blocks by object reference; this model addresses
them by their preorder path, which coincides with the reference semantics
whenever no processed block is a strict descendant of an earlier accepted
block (every run considered in the theorems below is of that form).  A path
that no longer resolves is skipped. -/
def runBatchEls (tr : Oracle) (parse : ParseFn) (parts : List String) :
    Node → List (List Nat) → Nat → Except PyErr Node × List String
  | tree, [], _ => (.ok tree, [])
  | tree, p :: rest, j =>
    match getPath tree p with
    | none => runBatchEls tr parse parts tree rest (j + 1)
    | some el =>
      match processBatchElem tr parse el parts[j]? with
      | (.error e, t) => (.error e, t)
      | (.ok el2, t) =>
        match runBatchEls tr parse parts (setPath tree p el2) rest (j + 1) with
        | (r2, t2) => (r2, t ++ t2)

/-- Main `while i < len(blocks)` loop of `translate_doc` (lines 103-148).
With `batch_size > 1` (lines 106-136): serialize the next `batch_size`
blocks, join them with a newline into one oracle request — issued outside
any handler, so an oracle exception propagates — split the response on
newlines, and run the per-element batch loop; the index then advances by
`batch_size`.  Otherwise (lines 137-148) one block is processed on the
single path and the index advances by 1. -/
def runBatchesFuel (tr : Oracle) (parse : ParseFn) (bs : Int) :
    Nat → Node → List (List Nat) → Except PyErr Node × List String
  | _, tree, [] => (.ok tree, [])
  | 0, tree, _ :: _ => (.ok tree, [])
  | fuel + 1, tree, p :: rest =>
    if bs > 1 then
      let k := bs.toNat
      let batchPs := p :: rest.take (k - 1)
      let batchHtml := pyJoinNl
        (batchPs.map fun q =>
          match getPath tree q with
          | some el => ser el
          | none => "")
      match tr batchHtml with
      | .error _ => (.error .oracle, [batchHtml])
      | .ok tb =>
        let parts := pySplitNl tb
        match runBatchEls tr parse parts tree batchPs 0 with
        | (.error e, t) => (.error e, batchHtml :: t)
        | (.ok tree2, t) =>
          match runBatchesFuel tr parse bs fuel tree2 (rest.drop (k - 1)) with
          | (r2, t2) => (r2, batchHtml :: (t ++ t2))
    else
      match getPath tree p with
      | none => runBatchesFuel tr parse bs fuel tree rest
      | some el =>
        match processSingleBlock tr parse el with
        | (.error e, t) => (.error e, t)
        | (.ok el2, t) =>
          match runBatchesFuel tr parse bs fuel (setPath tree p el2) rest with
          | (r2, t2) => (r2, t ++ t2)

/-- Main loop entry: every iteration consumes at least one path, so a fuel
of `paths.length` never runs out before the path list is empty (the
fuel-exhausted branch above is unreachable and returns the tree unchanged,
which is also what the empty-list branch does). -/
def runBatches (tr : Oracle) (parse : ParseFn) (bs : Int)
    (tree : Node) (paths : List (List Nat)) : Except PyErr Node × List String :=
  runBatchesFuel tr parse bs paths.length tree paths

/-- Serialization `str(soup)` of the final document: bs4+lxml normalizes a
fragment to an html/body wrapper around the body contents. -/
def serDoc : Node → String
  | .elem _ _ cs => "<html><body>" ++ serList cs ++ "</body></html>"
  | .text s => "<html><body>" ++ s ++ "</body></html>"

/-- Source function `translate_doc` (lines 96-150): parse the document, and
if the soup has no body return the input bytes unchanged; otherwise collect
the block elements of the body in document order and run the main loop,
serializing the mutated soup at the end.  Alongside the result the list of
oracle request strings issued, in order, is returned. -/
def translate_doc (tr : Oracle) (parse : ParseFn) (st : Settings) (html : String) :
    Except PyErr String × List String :=
  match parse html with
  | none => (.ok html, [])
  | some cs =>
    let body := Node.elem "body" [] cs
    match runBatches tr parse st.batch_size body (blockPaths body) with
    | (r, t) => (r.map serDoc, t)

/-- Driver loop over the container's documents, source `translate_epub`
(lines 152-164) without the container I/O and progress display: each
document's content is translated; unless dry-run the item content is
replaced with the result.  Returns the final per-document contents and the
issued requests. -/
def runDocs (tr : Oracle) (parse : ParseFn) (st : Settings) :
    List String → Except PyErr (List String) × List String
  | [] => (.ok [], [])
  | d :: ds =>
    match translate_doc tr parse st d with
    | (.error e, t) => (.error e, t)
    | (.ok nd, t) =>
      let stored := if st.dry_run then d else nd
      match runDocs tr parse st ds with
      | (.ok nds, t2) => (.ok (stored :: nds), t ++ t2)
      | (.error e, t2) => (.error e, t ++ t2)

/-- Source function `translate_epub` (lines 152-164): run the driver loop,
and unless dry-run write the resulting container (`epub.write_epub`),
modelled as the `Option` second component — `none` means no output was
written. -/
def translate_epub (tr : Oracle) (parse : ParseFn) (st : Settings) (docs : List String) :
    Except PyErr (List String × Option (List String)) × List String :=
  match runDocs tr parse st docs with
  | (r, t) => (r.map (fun ds => (ds, if st.dry_run then none else some ds)), t)

/-- Modelled from the spec: the clamped exponential backoff of the oracle
client's retry policy (spec section 4.3).  The source configures it through
the external `tenacity` decorator `wait_exponential(min=1, max=10)`
(translate_epub.py line 67), whose loop is not part of this repository:
after failed attempt `n` the wait is `2 ^ (n - 1)` time-units, clamped into
`[mn, mx]`. -/
def wait_exponential (mn mx n : Nat) : Nat := min mx (max mn (2 ^ (n - 1)))

/-- Modelled from the spec: the bounded retry loop of the oracle client
(spec section 4.3), with the attempt body abstract and indexed by attempt
number.  `retryFrom oracle n r` runs at most `r` further attempts starting
at attempt `n`; every failure class is retried (source:
`retry_if_exception_type(Exception)`), the wait `wait_exponential 1 10 n`
is slept between attempts, and the last attempt's failure is returned
as-is (source: `reraise=True`).  Returns the result, the number of
attempts made, and the waits slept. -/
def retryFrom {E A : Type} (oracle : Nat → Except E A) : Nat → Nat → Except E A × Nat × List Nat
  | n, 0 => (oracle n, 1, [])
  | n, 1 => (oracle n, 1, [])
  | n, r + 2 =>
    match oracle n with
    | .ok a => (.ok a, 1, [])
    | .error _ =>
      match retryFrom oracle (n + 1) (r + 1) with
      | (res, c, ws) => (res, c + 1, wait_exponential 1 10 n :: ws)

/-- Modelled from the spec: `Translator.translate_html`'s retry behavior
with the decorator parameters of translate_epub.py lines 67-68 —
`stop_after_attempt(4)`, `wait_exponential(min=1, max=10)`,
`reraise=True`. -/
def translateHtmlAttempts {E A : Type} (oracle : Nat → Except E A) :
    Except E A × Nat × List Nat :=
  retryFrom oracle 1 4

/-!  Concrete scenario data used by the counterexamples and witnesses.
Each scenario fixes a finite oracle table and a finite parse table; the
parse tables follow bs4+lxml behavior on the strings they are applied to
(in particular: a fragment keeps its top-level elements as body contents,
and empty or whitespace-only input yields a soup with no body). -/

/-- Scenario A (shape-preservation witness): a block whose batch piece is
missing, so NodeFallback translates its single text node. -/
def trA : Oracle := fun s =>
  if s == "<span>hi</span>" then .ok "<span>HI</span>" else .error ()

def parseA : ParseFn := fun s =>
  if s == "<span>HI</span>" then some [.elem "span" [] [.text "HI"]] else none

/-- Scenario B (opaque block, mutating oracle): the document body is one
`pre` block containing `code`; the oracle returns the same shape with the
code text changed. -/
def preB : Node := .elem "pre" [] [.elem "code" [] [.text "int x = 1;"]]

def inB : String := "<pre><code>int x = 1;</code></pre>"

def respB : String := "<pre><code>int y = 2;</code></pre>"

def trB : Oracle := fun s => if s == inB then .ok respB else .error ()

def parseB : ParseFn := fun s =>
  if s == inB then some [preB]
  else if s == respB then some [.elem "pre" [] [.elem "code" [] [.text "int y = 2;"]]]
  else if s == "<code>int y = 2;</code>" then some [.elem "code" [] [.text "int y = 2;"]]
  else none

/-- Scenario C (the spec's wrong-tag example at batch size 1): body
`<p id="x">Hello <b>world</b></p>`, stub oracle answering the whole block
with a `div` and the span-wrapped text nodes with translations. -/
def pC : Node := .elem "p" [("id", "x")] [.text "Hello ", .elem "b" [] [.text "world"]]

def inC : String := "<p id=\"x\">Hello <b>world</b></p>"

def respC : String := "<div id=\"x\">Ciao mondo</div>"

def trC : Oracle := fun s =>
  if s == inC then .ok respC
  else if s == "<span>Hello </span>" then .ok "<span>Ciao </span>"
  else if s == "<span>world</span>" then .ok "<span>mondo</span>"
  else .error ()

def parseC : ParseFn := fun s =>
  if s == inC then some [pC]
  else if s == respC then some [.elem "div" [("id", "x")] [.text "Ciao mondo"]]
  else if s == "<span>Ciao </span>" then some [.elem "span" [] [.text "Ciao "]]
  else if s == "<span>mondo</span>" then some [.elem "span" [] [.text "mondo"]]
  else none

/-- Scenario D (batch of two, response splits into one piece): the oracle
answers the two-block batch request with a single line that is a valid
translation of the first block. -/
def p1D : Node := .elem "p" [] [.text "alpha"]

def p2D : Node := .elem "p" [] [.text "beta"]

def inD : String := "<p>alpha</p><p>beta</p>"

def batchReqD : String := "<p>alpha</p>\n<p>beta</p>"

def respD : String := "<p><b>ALPHA</b></p>"

def trD : Oracle := fun s =>
  if s == batchReqD then .ok respD
  else if s == "<span>beta</span>" then .ok "<span>BETA</span>"
  else .error ()

def parseD : ParseFn := fun s =>
  if s == inD then some [p1D, p2D]
  else if s == respD then some [.elem "p" [] [.elem "b" [] [.text "ALPHA"]]]
  else if s == "<b>ALPHA</b>" then some [.elem "b" [] [.text "ALPHA"]]
  else if s == "<span>BETA</span>" then some [.elem "span" [] [.text "BETA"]]
  else none

/-- Scenario E (opaque block with a non-opaque sibling text node): body
`<p id="k">note<pre><code>x=1</code></pre></p>`; both the `p` and the
nested `pre` are blocks, both are opaque; the oracle answers every
whole-block request with a wrong-tag `div`. -/
def preE : Node := .elem "pre" [] [.elem "code" [] [.text "x=1"]]

def pE : Node := .elem "p" [("id", "k")] [.text "note", preE]

def inE : String := "<p id=\"k\">note<pre><code>x=1</code></pre></p>"

def preReqE : String := "<pre><code>x=1</code></pre>"

def respE : String := "<div>zzz</div>"

def trE : Oracle := fun s =>
  if s == inE then .ok respE
  else if s == preReqE then .ok respE
  else .error ()

def parseE : ParseFn := fun s =>
  if s == inE then some [pE]
  else if s == respE then some [.elem "div" [] [.text "zzz"]]
  else none

/-- Scenario F (oracle failure on the batch-size-1 whole-block call). -/
def trF : Oracle := fun _ => .error ()

def parseF : ParseFn := fun s =>
  if s == "<p>hi</p>" then some [.elem "p" [] [.text "hi"]] else none

/-- Scenario G (validated response with empty inner content, and a
whitespace-only batch piece): body `<p id="x"></p>`, echoing oracle;
reparsing the empty inner markup yields a soup with no body. -/
def pG : Node := .elem "p" [("id", "x")] []

def inG : String := "<p id=\"x\"></p>"

def trG : Oracle := fun s => if s == inG then .ok inG else .error ()

def parseG : ParseFn := fun s => if s == inG then some [pG] else none

/-- Scenario H (successful single retry on the batch path): the piece
assigned to the block has the wrong top tag, the retried call answers with
a matching shape. -/
def trH : Oracle := fun s =>
  if s == "<p>a</p>" then .ok "<p><b>A</b></p>" else .error ()

def parseH : ParseFn := fun s =>
  if s == "<div>bad</div>" then some [.elem "div" [] [.text "bad"]]
  else if s == "<p><b>A</b></p>" then some [.elem "p" [] [.elem "b" [] [.text "A"]]]
  else if s == "<b>A</b>" then some [.elem "b" [] [.text "A"]]
  else none

/-- Scenario I (echoing oracle): answers every request with its input. -/
def trEcho : Oracle := fun s => .ok s

def parseEcho : ParseFn := fun s =>
  if s == "<p>t</p>" then some [.elem "p" [] [.text "t"]]
  else if s == "t" then some [.text "t"]
  else none

/-- Attempt-indexed oracle that fails every attempt. -/
def oracleFailAll : Nat → Except Unit Unit := fun _ => .error ()

/-!  Helper lemmas shared by the claim theorems. -/

theorem replaceInner_ok_shape {parse : ParseFn} {n : String} {a : List (String × String)}
    {cs : List Node} {s : String} {el2 : Node}
    (h : replaceInner parse (.elem n a cs) s = .ok el2) : ∃ cs2, el2 = .elem n a cs2 := by
  simp only [replaceInner] at h
  split at h
  · exact ⟨_, (Except.ok.inj h).symm⟩
  · cases h

theorem translateTextNodes_ok_shape {tr : Oracle} {parse : ParseFn} {n : String}
    {a : List (String × String)} {cs : List Node} {el2 : Node}
    (h : (translateTextNodes tr parse (.elem n a cs)).1 = .ok el2) :
    ∃ cs2, el2 = .elem n a cs2 := by
  rcases hE : trTextList tr parse cs with ⟨r, t⟩
  by_cases hc : listHasCodeLike cs
  · simp only [translateTextNodes, hc, if_true] at h
    exact ⟨cs, (Except.ok.inj h).symm⟩
  · simp only [translateTextNodes, hc, if_false, hE] at h
    cases r with
    | ok cs2 => exact ⟨cs2, (Except.ok.inj h).symm⟩
    | error e => cases h

theorem singleRetry_ok_shape {tr : Oracle} {parse : ParseFn} {n : String}
    {a : List (String × String)} {cs : List Node} {o : String} {el2 : Node}
    (h : (singleRetry tr parse (.elem n a cs) o).1 = .ok el2) :
    ∃ cs2, el2 = .elem n a cs2 := by
  rcases htr : tr o with e | outHtml
  · rcases hE : translateTextNodes tr parse (Node.elem n a cs) with ⟨r, t⟩
    simp only [singleRetry, htr, hE] at h
    exact translateTextNodes_ok_shape (by rw [hE]; exact h)
  · rcases hp : parse outHtml with _ | cs1
    · rcases hE : translateTextNodes tr parse (Node.elem n a cs) with ⟨r, t⟩
      simp only [singleRetry, htr, hp, hE] at h
      exact translateTextNodes_ok_shape (by rw [hE]; exact h)
    · rcases hf : firstTag cs1 with _ | topR
      · rcases hE : translateTextNodes tr parse (Node.elem n a cs) with ⟨r, t⟩
        simp only [singleRetry, htr, hp, hf, hE] at h
        cases r with
        | ok el3 => exact translateTextNodes_ok_shape (by rw [hE]; exact h)
        | error e => cases h
      · by_cases hs : sameTagAndAttrs (Node.elem n a cs) topR
        · rcases hri : replaceInner parse (Node.elem n a cs) (serList topR.childrenOf) with e | el3
          · rcases hE : translateTextNodes tr parse (Node.elem n a []) with ⟨r, t⟩
            simp only [singleRetry, htr, hp, hf, hs, if_true, hri, clearedOf, hE] at h
            have h2 : (translateTextNodes tr parse (Node.elem n a [])).1 = .ok el2 := by
              rw [hE]; exact h
            exact translateTextNodes_ok_shape h2
          · simp only [singleRetry, htr, hp, hf, hs, if_true, hri] at h
            have h2 : replaceInner parse (Node.elem n a cs) (serList topR.childrenOf) = .ok el2 := by
              rw [hri]; exact congrArg Except.ok (Except.ok.inj h)
            exact replaceInner_ok_shape h2
        · rcases hE : translateTextNodes tr parse (Node.elem n a cs) with ⟨r, t⟩
          simp only [singleRetry, htr, hp, hf, hs, if_false, hE] at h
          cases r with
          | ok el3 => exact translateTextNodes_ok_shape (by rw [hE]; exact h)
          | error e => cases h

theorem processBatchElem_ok_shape {tr : Oracle} {parse : ParseFn} {n : String}
    {a : List (String × String)} {cs : List Node} {piece : Option String} {el2 : Node}
    (h : (processBatchElem tr parse (.elem n a cs) piece).1 = .ok el2) :
    ∃ cs2, el2 = .elem n a cs2 := by
  rcases piece with _ | t
  · simp only [processBatchElem] at h
    exact translateTextNodes_ok_shape h
  · by_cases ht : t == ""
    · simp only [processBatchElem, ht, if_true] at h
      exact translateTextNodes_ok_shape h
    · rcases hp : parse t with _ | cs1
      · simp only [processBatchElem, ht, if_false, hp] at h
        cases h
      · rcases hf : firstTag cs1 with _ | top
        · simp only [processBatchElem, ht, if_false, hp, hf] at h
          exact singleRetry_ok_shape h
        · by_cases hs : sameTagAndAttrs (Node.elem n a cs) top
          · rcases hri : replaceInner parse (Node.elem n a cs) (serList top.childrenOf) with e | el3
            · simp only [processBatchElem, ht, if_false, hp, hf, hs, if_true, hri] at h
              cases h
            · simp only [processBatchElem, ht, if_false, hp, hf, hs, if_true, hri] at h
              have h2 : replaceInner parse (Node.elem n a cs) (serList top.childrenOf) = .ok el2 := by
                rw [hri]; exact congrArg Except.ok (Except.ok.inj h)
              exact replaceInner_ok_shape h2
          · simp only [processBatchElem, ht, if_false, hp, hf, hs, if_false] at h
            exact singleRetry_ok_shape h

theorem processSingleBlock_ok_shape {tr : Oracle} {parse : ParseFn} {n : String}
    {a : List (String × String)} {cs : List Node} {el2 : Node}
    (h : (processSingleBlock tr parse (.elem n a cs)).1 = .ok el2) :
    ∃ cs2, el2 = .elem n a cs2 := by
  rcases htr : tr (ser (Node.elem n a cs)) with e | outHtml
  · simp only [processSingleBlock, htr] at h
    cases h
  · rcases hp : parse outHtml with _ | cs1
    · simp only [processSingleBlock, htr, hp] at h
      cases h
    · rcases hf : firstTag cs1 with _ | top
      · rcases hE : translateTextNodes tr parse (Node.elem n a cs) with ⟨r, t⟩
        simp only [processSingleBlock, htr, hp, hf, hE] at h
        exact translateTextNodes_ok_shape (by rw [hE]; exact h)
      · by_cases hs : sameTagAndAttrs (Node.elem n a cs) top
        · rcases hri : replaceInner parse (Node.elem n a cs) (serList top.childrenOf) with e | el3
          · simp only [processSingleBlock, htr, hp, hf, hs, if_true, hri] at h
            cases h
          · simp only [processSingleBlock, htr, hp, hf, hs, if_true, hri] at h
            have h2 : replaceInner parse (Node.elem n a cs) (serList top.childrenOf) = .ok el2 := by
              rw [hri]; exact congrArg Except.ok (Except.ok.inj h)
            exact replaceInner_ok_shape h2
        · rcases hE : translateTextNodes tr parse (Node.elem n a cs) with ⟨r, t⟩
          simp only [processSingleBlock, htr, hp, hf, hs, if_false, hE] at h
          exact translateTextNodes_ok_shape (by rw [hE]; exact h)

theorem translateTextNodes_opaque_skip (tr : Oracle) (parse : ParseFn) {n : String}
    {a : List (String × String)} {cs : List Node} (h : listHasCodeLike cs = true) :
    translateTextNodes tr parse (.elem n a cs) = (.ok (.elem n a cs), []) := by
  simp only [translateTextNodes, h, if_true]

theorem lookupAttr_self {a : List (String × String)} (hnd : (a.map Prod.fst).Nodup) :
    ∀ kv ∈ a, lookupAttr a kv.1 = some kv.2 := by
  induction a with
  | nil => intro kv h; cases h
  | cons hd tl ih =>
    intro kv hkv
    rcases hd with ⟨k, v⟩
    simp only [List.map_cons, List.nodup_cons] at hnd
    rcases List.mem_cons.mp hkv with rfl | hmem
    · simp [lookupAttr]
    · have hne : ¬(k == kv.1) = true := by
        rw [beq_iff_eq]
        intro hEq
        exact hnd.1 (hEq ▸ List.mem_map_of_mem Prod.fst hmem)
      simp only [lookupAttr, hne, if_false]
      exact ih hnd.2 kv hmem

theorem attrsEq_refl {a : List (String × String)} (hnd : (a.map Prod.fst).Nodup) :
    attrsEq a a = true := by
  unfold attrsEq
  rw [Bool.and_eq_true]
  constructor <;>
    (rw [List.all_eq_true]; intro kv hkv; rw [beq_iff_eq]; exact lookupAttr_self hnd kv hkv)

theorem singleRetry_trace_cons (tr : Oracle) (parse : ParseFn) (el : Node) (o : String) :
    ∃ rest, (singleRetry tr parse el o).2 = o :: rest := by
  rcases htr : tr o with e | outHtml
  · rcases hE : translateTextNodes tr parse el with ⟨r, t⟩
    exact ⟨t, by simp only [singleRetry, htr, hE]⟩
  · rcases hp : parse outHtml with _ | cs1
    · rcases hE : translateTextNodes tr parse el with ⟨r, t⟩
      exact ⟨t, by simp only [singleRetry, htr, hp, hE]⟩
    · rcases hf : firstTag cs1 with _ | topR
      · rcases hE : translateTextNodes tr parse el with ⟨r, t⟩
        cases r with
        | ok el3 => exact ⟨t, by simp only [singleRetry, htr, hp, hf, hE]⟩
        | error e => exact ⟨t ++ t, by simp only [singleRetry, htr, hp, hf, hE]⟩
      · by_cases hs : sameTagAndAttrs el topR
        · rcases hri : replaceInner parse el (serList topR.childrenOf) with e | el3
          · rcases hE : translateTextNodes tr parse (clearedOf el) with ⟨r, t⟩
            exact ⟨t, by simp only [singleRetry, htr, hp, hf, hs, if_true, hri, hE]⟩
          · exact ⟨[], by simp only [singleRetry, htr, hp, hf, hs, if_true, hri]⟩
        · rcases hE : translateTextNodes tr parse el with ⟨r, t⟩
          cases r with
          | ok el3 => exact ⟨t, by simp [singleRetry, htr, hp, hf, hs, hE]⟩
          | error e => exact ⟨t ++ t, by simp [singleRetry, htr, hp, hf, hs, hE]⟩

/-!  Claim theorems. -/

/-- C1 (shape preservation): for every block processed on the batch path
(with whatever piece the response split assigned to it) or on the
single-block path, for every oracle behavior and parse behavior, any result
that is installed without an escaping exception keeps the original block's
outer tag name and attribute mapping — only the children may differ.  In
particular every block accepted via the batch or single-retry path keeps
its shape: acceptance is guarded by `sameTagAndAttrs` (equal tag name and
equal attribute mapping) and installation (`replaceInner`, the model of
`_replace_inner`) rebuilds the element from its original name and
attributes around the new children. -/
theorem accepted_block_keeps_tag_and_attrs (tr : Oracle) (parse : ParseFn)
    (n : String) (a : List (String × String)) (cs : List Node)
    (piece : Option String) (el2 : Node)
    (h : (processBatchElem tr parse (.elem n a cs) piece).1 = .ok el2 ∨
         (processSingleBlock tr parse (.elem n a cs)).1 = .ok el2) :
    el2.tag = n ∧ el2.attrsOf = a := by
  rcases h with h | h
  · obtain ⟨cs2, rfl⟩ := processBatchElem_ok_shape h
    exact ⟨rfl, rfl⟩
  · obtain ⟨cs2, rfl⟩ := processSingleBlock_ok_shape h
    exact ⟨rfl, rfl⟩

/-- Witness for the shape-preservation theorem at a concrete run (scenario
A: a block whose missing batch piece routes it through NodeFallback). -/
theorem accepted_block_keeps_tag_and_attrs_witness :
    (Node.elem "p" [("id", "x")] [Node.text "HI"]).tag = "p" ∧
    (Node.elem "p" [("id", "x")] [Node.text "HI"]).attrsOf = [("id", "x")] :=
  accepted_block_keeps_tag_and_attrs trA parseA "p" [("id", "x")] [Node.text "hi"] none
    (Node.elem "p" [("id", "x")] [Node.text "HI"]) (Or.inl rfl)

/-- C10: a document whose parsed soup has no body element is returned
unchanged by `translate_doc` and no oracle request is issued (source lines
96-99). -/
theorem no_body_returns_input_unchanged (tr : Oracle) (parse : ParseFn)
    (st : Settings) (html : String) (h : parse html = none) :
    translate_doc tr parse st html = (.ok html, []) := by
  simp only [translate_doc, h]

/-- Witness for the no-body theorem at a concrete input. -/
theorem no_body_returns_input_unchanged_witness :
    translate_doc trF (fun _ => none) ⟨1, false⟩ "<p>x</p>" = (.ok "<p>x</p>", []) :=
  no_body_returns_input_unchanged trF (fun _ => none) ⟨1, false⟩ "<p>x</p>" rfl

/-- C9: the error branch of installing a validated response is reachable.
Left conjunct (scenario G): the oracle echoes the empty block
`<p id="x"></p>`; the response passes shape validation, `_replace_inner`
reparses its empty inner markup, the reparse yields a soup with no body,
and the `.contents` access raises `AttributeError` out of the per-document
translation instead of completing the accept/fallback ladder.  Right
conjunct: a whitespace-only batch piece reparses to a body-less soup and
raises at the `parsed.body.contents` read of the batch loop (source lines
118-119). -/
theorem empty_inner_install_raises :
    translate_doc trG parseG ⟨1, false⟩ inG = (.error .attributeError, [inG]) ∧
    processBatchElem trG parseG (.elem "p" [] [.text "y"]) (some " ") =
      (.error .attributeError, []) :=
  ⟨rfl, rfl⟩

/-- C6 counterexample: with batch size 1 and an oracle whose whole-block
call raises (its retry policy exhausted), `translate_doc` itself raises —
the oracle error is not absorbed by any retry/fallback ladder, refuting the
claim that such errors never propagate out of the per-document
translation. -/
theorem oracle_error_escapes_translate_doc :
    translate_doc trF parseF ⟨1, false⟩ "<p>hi</p>" = (.error .oracle, ["<p>hi</p>"]) :=
  rfl

/-- C6 amended: only the single-retry call of the batch path absorbs an
oracle failure (first conjunct: the failure turns into a NodeFallback run);
the batch-size-1 whole-block call propagates an oracle error out of the
per-document translation (second conjunct), and a response that reparses to
a body-less soup raises `AttributeError` there instead of being handled
like a shape mismatch (third conjunct). -/
theorem oracle_error_absorption_boundary (tr : Oracle) (parse : ParseFn)
    (el : Node) (o out : String) :
    (tr o = .error () → singleRetry tr parse el o =
      ((translateTextNodes tr parse el).1, o :: (translateTextNodes tr parse el).2)) ∧
    (tr (ser el) = .error () → processSingleBlock tr parse el = (.error .oracle, [ser el])) ∧
    (tr (ser el) = .ok out → parse out = none →
      processSingleBlock tr parse el = (.error .attributeError, [ser el])) := by
  refine ⟨fun h => ?_, fun h => ?_, fun h hp => ?_⟩
  · rcases hE : translateTextNodes tr parse el with ⟨r, t⟩
    simp only [singleRetry, h, hE]
  · simp only [processSingleBlock, h]
  · simp only [processSingleBlock, h, hp]

/-- Witness for the absorption-boundary theorem at a concrete input. -/
theorem oracle_error_absorption_boundary_witness :
    processSingleBlock trF parseF (.elem "p" [] [.text "hi"]) =
      (.error .oracle, ["<p>hi</p>"]) :=
  (oracle_error_absorption_boundary trF parseF (.elem "p" [] [.text "hi"]) "q" "w").2.1 rfl

/-- C2 counterexample: for the spec's own example block
`<pre><code>int x = 1;</code></pre>` (scenario B) and an oracle returning
the same shape with mutated code text, the run issues a whole-block oracle
request containing the opaque subtree (the trace is `[inB]`) and installs
the mutated code text — the opaque text is not byte-identical after
translation (third conjunct: the output differs from the original document
serialization). -/
theorem opaque_text_mutated_by_validated_response :
    translate_doc trB parseB ⟨1, false⟩ inB =
      (.ok "<html><body><pre><code>int y = 2;</code></pre></body></html>", [inB]) ∧
    subtreeHasCodeLike preB = true ∧
    "<html><body><pre><code>int y = 2;</code></pre></body></html>" ≠
      "<html><body>" ++ inB ++ "</body></html>" :=
  ⟨rfl, rfl, by decide⟩

/-- C2 amended: opaque text is protected only conditionally.  First
conjunct: the per-text-node fallback never issues a call for a block with a
code-like strict descendant (the block is returned untouched).  Second
conjunct: on the whole-block path the opaque block is sent to the oracle,
and its text survives exactly when the oracle echoes the block (here: an
echoing oracle leaves the block byte-identical, at the cost of one
request). -/
theorem opaque_text_preservation_conditions (tr : Oracle) (parse : ParseFn)
    (n : String) (a : List (String × String)) (cs : List Node) :
    (listHasCodeLike cs = true →
      translateTextNodes tr parse (.elem n a cs) = (.ok (.elem n a cs), [])) ∧
    ((a.map Prod.fst).Nodup →
      tr (ser (.elem n a cs)) = .ok (ser (.elem n a cs)) →
      parse (ser (.elem n a cs)) = some [.elem n a cs] →
      parse (serList cs) = some cs →
      processSingleBlock tr parse (.elem n a cs) =
        (.ok (.elem n a cs), [ser (.elem n a cs)])) := by
  refine ⟨fun h => translateTextNodes_opaque_skip tr parse h, fun hnd htr hp hinner => ?_⟩
  have hsame : sameTagAndAttrs (Node.elem n a cs) (Node.elem n a cs) = true := by
    simp only [sameTagAndAttrs, beq_self_eq_true, Bool.true_and]
    exact attrsEq_refl hnd
  have hft : firstTag [Node.elem n a cs] = some (Node.elem n a cs) := rfl
  simp only [processSingleBlock, htr, hp, hft, hsame, if_true, replaceInner,
    Node.childrenOf, hinner]

/-- Witness for the conditional-preservation theorem at a concrete echoed
block. -/
theorem opaque_text_preservation_conditions_witness :
    processSingleBlock trEcho parseEcho (.elem "p" [] [.text "t"]) =
      (.ok (.elem "p" [] [.text "t"]), ["<p>t</p>"]) :=
  (opaque_text_preservation_conditions trEcho parseEcho "p" [] [.text "t"]).2
    (by simp) rfl rfl rfl

/-- C5 counterexample: scenario E's body is
`<p id="k">note<pre><code>x=1</code></pre></p>`; both blocks (`p` and the
nested `pre`) are opaque in the claim's sense (second and third conjuncts),
yet the run issues a whole-block oracle request for each of them — the
trace is exactly their outer markups — and, both responses failing shape
validation, the fallback skips both blocks entirely, so the non-opaque text
node `note` is never translated individually (no span-wrapped request
appears in the trace). -/
theorem opaque_block_gets_whole_block_request :
    translate_doc trE parseE ⟨1, false⟩ inE =
      (.ok "<html><body><p id=\"k\">note<pre><code>x=1</code></pre></p></body></html>",
       [inE, preReqE]) ∧
    subtreeHasCodeLike pE = true ∧ subtreeHasCodeLike preE = true :=
  ⟨rfl, rfl, rfl⟩

/-- C5 amended: no opaqueness check gates whole-block translation — on the
single path the first oracle request of every block's processing is its own
outer markup, opaque or not (first conjunct); opaqueness is consulted only
inside the per-text-node fallback, which skips a block with any code-like
strict descendant entirely, translating none of its text nodes, the
non-opaque ones included (second conjunct). -/
theorem opaqueness_checked_only_in_fallback (tr : Oracle) (parse : ParseFn)
    (el : Node) (n : String) (a : List (String × String)) (cs : List Node) :
    ((processSingleBlock tr parse el).2).head? = some (ser el) ∧
    (listHasCodeLike cs = true →
      translateTextNodes tr parse (.elem n a cs) = (.ok (.elem n a cs), [])) := by
  constructor
  · rcases htr : tr (ser el) with e | outHtml
    · simp only [processSingleBlock, htr]
      rfl
    · rcases hp : parse outHtml with _ | cs1
      · simp only [processSingleBlock, htr, hp]
        rfl
      · rcases hf : firstTag cs1 with _ | top
        · rcases hE : translateTextNodes tr parse el with ⟨r, t⟩
          simp only [processSingleBlock, htr, hp, hf, hE]
          rfl
        · by_cases hs : sameTagAndAttrs el top
          · rcases hri : replaceInner parse el (serList top.childrenOf) with e | el3
            · simp only [processSingleBlock, htr, hp, hf, hs, if_true, hri]
              rfl
            · simp only [processSingleBlock, htr, hp, hf, hs, if_true, hri]
              rfl
          · rcases hE : translateTextNodes tr parse el with ⟨r, t⟩
            simp [processSingleBlock, htr, hp, hf, hs, hE]
  · exact fun h => translateTextNodes_opaque_skip tr parse h

/-- Witness for the fallback-gating theorem at scenario E's opaque block. -/
theorem opaqueness_checked_only_in_fallback_witness :
    ((processSingleBlock trE parseE pE).2).head? = some inE ∧
    translateTextNodes trE parseE pE = (.ok pE, []) :=
  ⟨(opaqueness_checked_only_in_fallback trE parseE pE "p" [("id", "k")]
      [Node.text "note", preE]).1,
   (opaqueness_checked_only_in_fallback trE parseE pE "p" [("id", "k")]
      [Node.text "note", preE]).2 rfl⟩

/-- C3 counterexample: the spec's wrong-tag example at batch size 1
(scenario C: body `<p id="x">Hello <b>world</b></p>`, oracle answering the
block with `<div id="x">Ciao mondo</div>`).  The full request trace is the
initial whole-block call followed directly by the two span-wrapped
NodeFallback fragments, and the block's outer markup occurs exactly once in
the trace — no additional oracle call with the block's own outer markup is
ever issued before the fallback, refuting the claimed single retry at batch
size 1.  (The final markup does keep the `<p id="x">` tag, as the fallback
only rewrites text nodes.) -/
theorem no_single_retry_at_batch_size_one :
    translate_doc trC parseC ⟨1, false⟩ inC =
      (.ok "<html><body><p id=\"x\">Ciao <b>mondo</b></p></body></html>",
       [inC, "<span>Hello </span>", "<span>world</span>"]) ∧
    ((translate_doc trC parseC ⟨1, false⟩ inC).2).count inC = 1 :=
  ⟨rfl, rfl⟩

/-- C3 amended: the single retry exists only on the batch path.  First
conjunct: when a non-empty batch piece fails shape validation (no top
element, or `sameShape` false), the block's processing issues an additional
oracle call whose content is exactly the block's own outer markup, first.
Second conjunct: that retry is re-validated with `sameShape` and, on
success, installed — and it is the only additional call.  Third conjunct:
at batch size 1 a shape-validation failure falls directly to NodeFallback —
the block's processing equals the fallback run prefixed by the one initial
whole-block call, with no retry in between. -/
theorem single_retry_only_on_batch_path (tr : Oracle) (parse : ParseFn)
    (n : String) (a : List (String × String)) (cs : List Node)
    (t out : String) (ps cs2 cs3 cst : List Node)
    (m : String) (b : List (String × String)) :
    ((¬ t = "") → parse t = some ps →
      (∀ tp, firstTag ps = some tp → sameTagAndAttrs (.elem n a cs) tp = false) →
      ∃ rest, (processBatchElem tr parse (.elem n a cs) (some t)).2 =
        ser (.elem n a cs) :: rest) ∧
    ((¬ t = "") → parse t = some ps →
      (∀ tp, firstTag ps = some tp → sameTagAndAttrs (.elem n a cs) tp = false) →
      tr (ser (.elem n a cs)) = .ok out → parse out = some cs2 →
      firstTag cs2 = some (.elem m b cst) →
      sameTagAndAttrs (.elem n a cs) (.elem m b cst) = true →
      parse (serList cst) = some cs3 →
      processBatchElem tr parse (.elem n a cs) (some t) =
        (.ok (.elem n a cs3), [ser (.elem n a cs)])) ∧
    (tr (ser (.elem n a cs)) = .ok out → parse out = some cs2 →
      (∀ tp, firstTag cs2 = some tp → sameTagAndAttrs (.elem n a cs) tp = false) →
      processSingleBlock tr parse (.elem n a cs) =
        ((translateTextNodes tr parse (.elem n a cs)).1,
         ser (.elem n a cs) :: (translateTextNodes tr parse (.elem n a cs)).2)) := by
  refine ⟨fun ht hp hfail => ?_, fun ht hp hfail htr hpo hft hs hinner => ?_,
    fun htr hpo hfail => ?_⟩
  · have ht2 : (t == "") = false := beq_eq_false_iff_ne.mpr ht
    rcases hf : firstTag ps with _ | tp
    · simp only [processBatchElem, ht2, Bool.false_eq_true, if_false, hp, hf]
      exact singleRetry_trace_cons tr parse _ _
    · have hs2 := hfail tp hf
      simp only [processBatchElem, ht2, Bool.false_eq_true, if_false, hp, hf, hs2]
      exact singleRetry_trace_cons tr parse _ _
  · have ht2 : (t == "") = false := beq_eq_false_iff_ne.mpr ht
    rcases hf : firstTag ps with _ | tp
    · simp only [processBatchElem, ht2, Bool.false_eq_true, if_false, hp, hf, singleRetry,
        htr, hpo, hft, hs, if_true, replaceInner, Node.childrenOf, hinner]
    · have hs2 := hfail tp hf
      simp only [processBatchElem, ht2, Bool.false_eq_true, if_false, hp, hf, hs2, singleRetry,
        htr, hpo, hft, hs, if_true, replaceInner, Node.childrenOf, hinner]
  · simp only [processSingleBlock, htr, hpo]
    rcases hf2 : firstTag cs2 with _ | tp
    · rcases hE : translateTextNodes tr parse (Node.elem n a cs) with ⟨r, t2⟩
      simp only [hf2, hE]
    · have hs2 := hfail tp hf2
      rcases hE : translateTextNodes tr parse (Node.elem n a cs) with ⟨r, t2⟩
      simp [hf2, hs2, hE]

/-- Witness for the batch-path retry theorem (scenario H: a wrong-tag piece
followed by a shape-correct retry, accepted with exactly one retry call). -/
theorem single_retry_only_on_batch_path_witness :
    processBatchElem trH parseH (.elem "p" [] [.text "a"]) (some "<div>bad</div>") =
      (.ok (.elem "p" [] [.elem "b" [] [.text "A"]]), ["<p>a</p>"]) :=
  (single_retry_only_on_batch_path trH parseH "p" [] [.text "a"] "<div>bad</div>"
      "<p><b>A</b></p>" [.elem "div" [] [.text "bad"]]
      [.elem "p" [] [.elem "b" [] [.text "A"]]] [.elem "b" [] [.text "A"]]
      [.elem "b" [] [.text "A"]] "p" []).2.1
    (by decide) rfl
    (fun tp htp => by cases Option.some.inj htp; rfl)
    rfl rfl rfl rfl rfl

/-- C4 counterexample: scenario D sends a batch of N = 2 blocks as one
newline-joined request; the oracle's response splits into exactly one piece
(second conjunct), yet block 0 is shape-validated against that piece and
accepted directly from the batch response — its children are replaced with
the piece's inner content and no retry or fallback call for it appears in
the trace — while only block 1 (with no piece at its index) is treated as
failed and routed to NodeFallback.  This refutes treating a split-count
mismatch as a full-batch validation failure. -/
theorem split_mismatch_block_still_accepted :
    translate_doc trD parseD ⟨2, false⟩ inD =
      (.ok "<html><body><p><b>ALPHA</b></p><p>BETA</p></body></html>",
       [batchReqD, "<span>beta</span>"]) ∧
    (pySplitNl respD).length = 1 :=
  ⟨rfl, rfl⟩

/-- C4 amended: batch pieces are assigned per index, with no comparison of
the split count against the batch size.  A block whose index has no piece,
or an empty piece, goes directly to NodeFallback — skipping even the single
retry (first and second conjuncts) — while a block whose index-aligned
piece passes shape validation is accepted directly from the batch response
regardless of the total piece count (third conjunct); surplus pieces are
ignored. -/
theorem batch_piece_assignment_per_block (tr : Oracle) (parse : ParseFn)
    (el : Node) (n : String) (a : List (String × String)) (cs : List Node)
    (t : String) (ps cs3 cst : List Node) (m : String) (b : List (String × String)) :
    processBatchElem tr parse el none = translateTextNodes tr parse el ∧
    processBatchElem tr parse el (some "") = translateTextNodes tr parse el ∧
    ((¬ t = "") → parse t = some ps → firstTag ps = some (.elem m b cst) →
      sameTagAndAttrs (.elem n a cs) (.elem m b cst) = true →
      parse (serList cst) = some cs3 →
      processBatchElem tr parse (.elem n a cs) (some t) = (.ok (.elem n a cs3), [])) := by
  refine ⟨rfl, rfl, fun ht hp hft hs hinner => ?_⟩
  have ht2 : (t == "") = false := beq_eq_false_iff_ne.mpr ht
  simp only [processBatchElem, ht2, Bool.false_eq_true, if_false, hp, hft, hs, if_true,
    replaceInner, Node.childrenOf, hinner]

/-- Witness for the per-block piece-assignment theorem at scenario D's
first block. -/
theorem batch_piece_assignment_per_block_witness :
    processBatchElem trD parseD p1D (some respD) =
      (.ok (.elem "p" [] [.elem "b" [] [.text "ALPHA"]]), []) :=
  (batch_piece_assignment_per_block trD parseD p1D "p" [] [.text "alpha"] respD
      [.elem "p" [] [.elem "b" [] [.text "ALPHA"]]] [.elem "b" [] [.text "ALPHA"]]
      [.elem "b" [] [.text "ALPHA"]] "p" []).2.2
    (by decide) rfl rfl rfl rfl

/-- C7 (spec-modelled, since the tenacity loop is external to the
repository): the oracle client's retry policy makes between 1 and 4
attempts per call; the waits slept between attempts follow the exponential
schedule 1, 2, 4 (each within the clamp interval [1, 10]); when the result
is a failure, all 4 attempts were made and the surfaced failure is exactly
the 4th attempt's (reraise, not swallowed); when the result is a success it
is the last attempt's answer and every earlier attempt failed (any failure
class is retried). -/
theorem translate_html_retry_policy {E A : Type} (oracle : Nat → Except E A) :
    (translateHtmlAttempts oracle).2.1 ≤ 4 ∧
    1 ≤ (translateHtmlAttempts oracle).2.1 ∧
    (translateHtmlAttempts oracle).2.2 =
      [1, 2, 4].take ((translateHtmlAttempts oracle).2.1 - 1) ∧
    (∀ w ∈ (translateHtmlAttempts oracle).2.2, 1 ≤ w ∧ w ≤ 10) ∧
    (∀ e, (translateHtmlAttempts oracle).1 = .error e →
      (translateHtmlAttempts oracle).2.1 = 4 ∧ oracle 4 = .error e) ∧
    (∀ x, (translateHtmlAttempts oracle).1 = .ok x →
      oracle ((translateHtmlAttempts oracle).2.1) = .ok x ∧
      ∀ j, 1 ≤ j → j < (translateHtmlAttempts oracle).2.1 → ∃ e, oracle j = .error e) := by
  rcases h1 : oracle 1 with e1 | a1
  · rcases h2 : oracle 2 with e2 | a2
    · rcases h3 : oracle 3 with e3 | a3
      · rcases h4 : oracle 4 with e4 | a4
        · simp only [translateHtmlAttempts, retryFrom, h1, h2, h3, h4]
          refine ⟨by norm_num, by norm_num, by norm_num [wait_exponential], ?_, ?_, ?_⟩
          · intro w hw
            simp [wait_exponential] at hw
            rcases hw with rfl | rfl | rfl <;> norm_num
          · intro e he
            exact ⟨by norm_num, he⟩
          · intro x hx
            simp at hx
        · simp only [translateHtmlAttempts, retryFrom, h1, h2, h3, h4]
          refine ⟨by norm_num, by norm_num, by norm_num [wait_exponential], ?_, ?_, ?_⟩
          · intro w hw
            simp [wait_exponential] at hw
            rcases hw with rfl | rfl | rfl <;> norm_num
          · intro e he
            simp at he
          · intro x hx
            obtain rfl := Except.ok.inj hx
            refine ⟨rfl, ?_⟩
            intro j hj1 hj2
            have : j < 4 := by omega
            interval_cases j
            · exact ⟨e1, h1⟩
            · exact ⟨e2, h2⟩
            · exact ⟨e3, h3⟩
      · simp only [translateHtmlAttempts, retryFrom, h1, h2, h3]
        refine ⟨by norm_num, by norm_num, by norm_num [wait_exponential], ?_, ?_, ?_⟩
        · intro w hw
          simp [wait_exponential] at hw
          rcases hw with rfl | rfl <;> norm_num
        · intro e he
          simp at he
        · intro x hx
          obtain rfl := Except.ok.inj hx
          refine ⟨rfl, ?_⟩
          intro j hj1 hj2
          have : j < 3 := by omega
          interval_cases j
          · exact ⟨e1, h1⟩
          · exact ⟨e2, h2⟩
    · simp only [translateHtmlAttempts, retryFrom, h1, h2]
      refine ⟨by norm_num, by norm_num, by norm_num [wait_exponential], ?_, ?_, ?_⟩
      · intro w hw
        simp [wait_exponential] at hw
        rcases hw with rfl
        norm_num
      · intro e he
        simp at he
      · intro x hx
        obtain rfl := Except.ok.inj hx
        refine ⟨rfl, ?_⟩
        intro j hj1 hj2
        have : j < 2 := by omega
        interval_cases j
        exact ⟨e1, h1⟩
  · simp only [translateHtmlAttempts, retryFrom, h1]
    refine ⟨by norm_num, by norm_num, by norm_num, ?_, ?_, ?_⟩
    · intro w hw
      simp at hw
    · intro e he
      simp at he
    · intro x hx
      obtain rfl := Except.ok.inj hx
      refine ⟨rfl, ?_⟩
      intro j hj1 hj2
      omega

/-- Witness for the retry-policy theorem at an always-failing oracle. -/
theorem translate_html_retry_policy_witness :
    (translateHtmlAttempts oracleFailAll).2.1 = 4 ∧ oracleFailAll 4 = .error () :=
  (translate_html_retry_policy oracleFailAll).2.2.2.2.1 () rfl

theorem runDocs_dry_wet (tr : Oracle) (parse : ParseFn) (bs : Int) (docs : List String) :
    (runDocs tr parse ⟨bs, true⟩ docs).2 = (runDocs tr parse ⟨bs, false⟩ docs).2 ∧
    (runDocs tr parse ⟨bs, true⟩ docs).1 =
      (runDocs tr parse ⟨bs, false⟩ docs).1.map (fun _ => docs) := by
  induction docs with
  | nil => exact ⟨rfl, rfl⟩
  | cons d ds ih =>
    have hsame : translate_doc tr parse ⟨bs, true⟩ d = translate_doc tr parse ⟨bs, false⟩ d := rfl
    rcases htd : translate_doc tr parse ⟨bs, false⟩ d with ⟨r, t⟩
    rw [htd] at hsame
    cases r with
    | error e =>
      constructor <;> simp [runDocs, hsame, htd, Except.map]
    | ok nd =>
      obtain ⟨iht, ihr⟩ := ih
      rcases hrdw : runDocs tr parse ⟨bs, false⟩ ds with ⟨rw2, tw⟩
      rcases hrdd : runDocs tr parse ⟨bs, true⟩ ds with ⟨rd2, td⟩
      rw [hrdw, hrdd] at iht ihr
      have iht2 : td = tw := iht
      cases rw2 with
      | error e2 =>
        have hrd : rd2 = .error e2 := by simpa [Except.map] using ihr
        subst hrd
        constructor <;> simp [runDocs, hsame, htd, hrdw, hrdd, iht2, Except.map]
      | ok nds =>
        have hrd : rd2 = .ok ds := by simpa [Except.map] using ihr
        subst hrd
        constructor <;> simp [runDocs, hsame, htd, hrdw, hrdd, iht2, Except.map]

/-- C8 (dry-run non-mutation): a dry run issues exactly the same oracle
request sequence as the normal run on the same input (first conjunct: the
traces are equal, so every oracle call and every validation step of the
normal run is performed), but when it completes, the stored contents of
every document are the original inputs and no output container is written
(second conjunct); moreover the dry run raises exactly when the normal run
raises (third conjunct). -/
theorem dry_run_non_mutation (tr : Oracle) (parse : ParseFn) (bs : Int) (docs : List String) :
    (translate_epub tr parse ⟨bs, true⟩ docs).2 = (translate_epub tr parse ⟨bs, false⟩ docs).2 ∧
    (∀ res, (translate_epub tr parse ⟨bs, true⟩ docs).1 = .ok res → res = (docs, none)) ∧
    (∀ e, (translate_epub tr parse ⟨bs, true⟩ docs).1 = .error e ↔
          (translate_epub tr parse ⟨bs, false⟩ docs).1 = .error e) := by
  obtain ⟨hT, hR⟩ := runDocs_dry_wet tr parse bs docs
  rcases hd : runDocs tr parse ⟨bs, true⟩ docs with ⟨rd, td⟩
  rcases hw : runDocs tr parse ⟨bs, false⟩ docs with ⟨rw2, tw⟩
  rw [hd, hw] at hT hR
  have hT2 : td = tw := hT
  have hR2 : rd = Except.map (fun _ => docs) rw2 := hR
  subst hR2
  refine ⟨?_, ?_, ?_⟩
  · simp only [translate_epub, hd, hw]
    exact hT2
  · intro res hres
    simp only [translate_epub, hd] at hres
    cases rw2 with
    | error e => simp [Except.map] at hres
    | ok nds =>
      simp [Except.map] at hres
      exact hres.symm
  · intro e
    simp only [translate_epub, hd, hw]
    cases rw2 with
    | error e2 => simp [Except.map]
    | ok nds => simp [Except.map]

/-- Witness for the dry-run theorem at a concrete one-document container. -/
theorem dry_run_non_mutation_witness :
    (translate_epub trF (fun _ => none) ⟨1, true⟩ ["a"]).2 =
      (translate_epub trF (fun _ => none) ⟨1, false⟩ ["a"]).2 ∧
    (["a"], (none : Option (List String))) = (["a"], none) :=
  ⟨(dry_run_non_mutation trF (fun _ => none) 1 ["a"]).1,
   (dry_run_non_mutation trF (fun _ => none) 1 ["a"]).2.1 (["a"], none) rfl⟩
